import Mathlib

/-!
Verification development for the request-scoped identity and
database-context resolution pipeline of the retro_game_exchange backend
(`src/api/auth.rs`, `src/error.rs`, `src/html_or_json.rs`).

Byte strings are modelled as `List Nat` (each element a byte value).
The external collaborators the auth module calls into (base64 decoding,
UTF-8 validation, typed-header extraction, the diesel query and the
connection pool) are modelled by their observable contracts, with
infrastructure availability made explicit as boolean flags in an
environment record.  The cryptographic hash (blake3) is a parameter
`H : List Nat → List Nat` of every definition that hashes.
-/

namespace RGE

/-- Lower-case a single ASCII byte, as Rust `to_ascii_lowercase`. -/
def lowerByte (b : Nat) : Nat :=
  if 65 ≤ b ∧ b ≤ 90 then b + 32 else b

/-- Rust `eq_ignore_ascii_case` on byte slices. -/
def eqIgnoreAsciiCase (xs ys : List Nat) : Bool :=
  xs.map lowerByte = ys.map lowerByte

/-- The bytes of the string `Basic`. -/
def basicSchemeBytes : List Nat := [66, 97, 115, 105, 99]

/-- The bytes of the string `Bearer`. -/
def bearerSchemeBytes : List Nat := [66, 101, 97, 114, 101, 114]

/-- The bytes of the cookie name `sessionid`. -/
def sessionidBytes : List Nat := [115, 101, 115, 115, 105, 111, 110, 105, 100]

/-- The bytes of the string `application/json`. -/
def appJsonBytes : List Nat :=
  [97, 112, 112, 108, 105, 99, 97, 116, 105, 111, 110, 47, 106, 115, 111, 110]

/-- Value of one base64 alphabet character (standard alphabet). -/
def b64Val (c : Nat) : Option Nat :=
  if 65 ≤ c ∧ c ≤ 90 then some (c - 65)
  else if 97 ≤ c ∧ c ≤ 122 then some (c - 71)
  else if 48 ≤ c ∧ c ≤ 57 then some (c + 4)
  else if c = 43 then some 62
  else if c = 47 then some 63
  else none

/-- Standard-alphabet base64 decoding with mandatory canonical padding and
rejection of non-zero trailing bits, the configuration of the
`general_purpose::STANDARD` engine the `headers` crate uses for `Basic`
credentials.  Input length must be a multiple of four; `=` (byte 61) may
appear only as padding in the final quantum. -/
def base64DecodeStd : List Nat → Option (List Nat)
  | [] => some []
  | a :: b :: c :: d :: rest =>
    match b64Val a, b64Val b with
    | some va, some vb =>
      if d = 61 then
        if rest ≠ [] then none
        else if c = 61 then
          if vb % 16 = 0 then some [va * 4 + vb / 16] else none
        else
          match b64Val c with
          | some vc =>
            if vc % 4 = 0 then some [va * 4 + vb / 16, vb % 16 * 16 + vc / 4]
            else none
          | none => none
      else
        match b64Val c, b64Val d, base64DecodeStd rest with
        | some vc, some vd, some tail =>
          some ((va * 4 + vb / 16) :: (vb % 16 * 16 + vc / 4) :: (vc % 4 * 64 + vd) :: tail)
        | _, _, _ => none
    | _, _ => none
  | _ => none

/-- A UTF-8 continuation byte. -/
def isUtf8Cont (b : Nat) : Bool := decide (128 ≤ b ∧ b ≤ 191)

/-- UTF-8 validity of a byte sequence (what Rust `String::from_utf8`
accepts): correct sequence lengths, no overlong forms, no surrogates,
nothing above U+10FFFF. -/
def validUtf8 : List Nat → Bool
  | [] => true
  | b :: rest =>
    if b ≤ 127 then validUtf8 rest
    else if 194 ≤ b ∧ b ≤ 223 then
      match rest with
      | c1 :: r => isUtf8Cont c1 && validUtf8 r
      | [] => false
    else if b = 224 then
      match rest with
      | c1 :: c2 :: r => decide (160 ≤ c1 ∧ c1 ≤ 191) && isUtf8Cont c2 && validUtf8 r
      | _ => false
    else if 225 ≤ b ∧ b ≤ 236 then
      match rest with
      | c1 :: c2 :: r => isUtf8Cont c1 && isUtf8Cont c2 && validUtf8 r
      | _ => false
    else if b = 237 then
      match rest with
      | c1 :: c2 :: r => decide (128 ≤ c1 ∧ c1 ≤ 159) && isUtf8Cont c2 && validUtf8 r
      | _ => false
    else if 238 ≤ b ∧ b ≤ 239 then
      match rest with
      | c1 :: c2 :: r => isUtf8Cont c1 && isUtf8Cont c2 && validUtf8 r
      | _ => false
    else if b = 240 then
      match rest with
      | c1 :: c2 :: c3 :: r =>
        decide (144 ≤ c1 ∧ c1 ≤ 191) && isUtf8Cont c2 && isUtf8Cont c3 && validUtf8 r
      | _ => false
    else if 241 ≤ b ∧ b ≤ 243 then
      match rest with
      | c1 :: c2 :: c3 :: r => isUtf8Cont c1 && isUtf8Cont c2 && isUtf8Cont c3 && validUtf8 r
      | _ => false
    else if b = 244 then
      match rest with
      | c1 :: c2 :: c3 :: r =>
        decide (128 ≤ c1 ∧ c1 ≤ 143) && isUtf8Cont c2 && isUtf8Cont c3 && validUtf8 r
      | _ => false
    else false

/-- A decoded `Basic` credential, as the `headers` crate stores it: the
decoded `user:pass` byte string together with the position of the first
colon. -/
structure BasicCred where
  decoded : List Nat
  colonPos : Nat
  deriving DecidableEq, Repr

/-- `Basic::username()`: the bytes before the first colon. -/
def BasicCred.username (b : BasicCred) : List Nat := b.decoded.take b.colonPos

/-- `Basic::password()`: the bytes after the first colon. -/
def BasicCred.password (b : BasicCred) : List Nat := b.decoded.drop (b.colonPos + 1)

/-- The non-panicking body of `Basic::decode` of the `headers` crate:
drop the six-byte `Basic ` prefix, skip further leading spaces,
base64-decode the remainder, require the result to be valid UTF-8 and to
contain a colon (byte 58).  The source slices the prefix off
unconditionally, so on values shorter than the prefix `Basic::decode`
does not return at all — it panics on the slice; that execution
behaviour is `basicDecodeRun` below, and this function's value on that
short region (`drop` of a short list is empty, hence `none`) is never
relied upon: the header path guards it with the scheme test and the
cookie path goes through `basicDecodeRun`. -/
def basicCredentialsDecode (v : List Nat) : Option BasicCred :=
  let bytes := v.drop 6
  match bytes.findIdx? (fun b => b ≠ 32) with
  | none => none
  | some i =>
    match base64DecodeStd (bytes.drop i) with
    | none => none
    | some dec =>
      if validUtf8 dec then
        match dec.findIdx? (fun b => b = 58) with
        | none => none
        | some cp => some ⟨dec, cp⟩
      else none

/-- `Basic::decode` as it executes in release: a value shorter than the
six-byte `Basic ` prefix panics on the prefix slice (index out of range),
modelled as `none`; otherwise the function returns (`some`) with the
result of the non-panicking body. -/
def basicDecodeRun (v : List Nat) : Option (Option BasicCred) :=
  if v.length < 6 then none else some (basicCredentialsDecode v)

/-- Scheme test of `Authorization::decode`: the header value is longer
than the scheme name, the byte after the scheme name is a space, and the
leading bytes equal the scheme name up to ASCII case. -/
def authSchemeMatches (scheme v : List Nat) : Bool :=
  decide (scheme.length < v.length) &&
  (v.getD scheme.length 0 == 32) &&
  eqIgnoreAsciiCase (v.take scheme.length) scheme

/-- `Header::decode` for `Authorization<Basic>`: `none` when the scheme
test fails, otherwise the credential decode. -/
def authBasicHeaderDecode (v : List Nat) : Option BasicCred :=
  if authSchemeMatches basicSchemeBytes v then basicCredentialsDecode v else none

/-- Byte accepted inside a `HeaderValue` built by `HeaderValue::from_str`. -/
def isValidHeaderByte (b : Nat) : Bool := decide ((32 ≤ b ∧ b ≠ 127) ∨ b = 9)

/-- `HeaderValue::from_str` on a cookie value: succeeds (returning the
same bytes) exactly when every byte is a legal header-value byte. -/
def headerValueFromStr (v : List Nat) : Option (List Nat) :=
  if v.all isValidHeaderByte then some v else none

/-- Byte accepted by `HeaderValue::to_str`: visible ASCII or tab. -/
def isVisibleAsciiByte (b : Nat) : Bool := decide ((32 ≤ b ∧ b < 127) ∨ b = 9)

/-- `HeaderValue::to_str`: succeeds exactly when every byte is visible
ASCII (or tab), returning the same bytes. -/
def headerValueToStr (v : List Nat) : Option (List Nat) :=
  if v.all isVisibleAsciiByte then some v else none

/-- `Header::decode` for `Authorization<Bearer>`: scheme test for
`Bearer`, then `to_str` of the whole value. -/
def authBearerHeaderDecode (v : List Nat) : Option (List Nat) :=
  if authSchemeMatches bearerSchemeBytes v && v.all isVisibleAsciiByte then some v
  else none

/-- `Actions` from `error.rs`: an optional sign-out button label and the
ok button flag. -/
structure Actions where
  signOut : Option String
  ok : Bool
  deriving DecidableEq, Repr

/-- `Actions::default()`: no sign-out button. -/
def Actions.default : Actions := ⟨none, true⟩

/-- `Actions::sign_out()`: sign-out button present. -/
def Actions.signOutAction : Actions := ⟨some "Sign out", true⟩

/-- The `wrap_err` context attached at each failure site of the auth
pipeline, identifying the step that failed (the head of the diagnostic
chain of the resulting `Error`). -/
inductive FailSite
  /-- Failed to retreive cookies from header -/
  | cookieJar
  /-- Failed to parse basic auth header -/
  | parseBasicHeader
  /-- Failed to parse bearer auth header -/
  | parseBearerHeader
  /-- Failed to get connection to database -/
  | getConnection
  /-- Failed to get user from database -/
  | getUserFromDatabase
  /-- Passwords did not match -/
  | passwordMismatch
  /-- Failed to set user id on connection -/
  | setUserIdOnConnection
  deriving DecidableEq, Repr

/-- The `Error` of `error.rs`, as this subsystem constructs it: the HTTP
status code, the failure site that raised it, and the suggested client
actions. -/
structure Error where
  statusCode : Nat
  site : FailSite
  actions : Actions
  deriving DecidableEq, Repr

/-- The `User` struct handlers receive: surrogate id plus username. -/
structure User where
  id : Int
  username : List Nat
  deriving DecidableEq, Repr

/-- The `Login` request body. -/
structure Login where
  username : List Nat
  password : List Nat
  deriving DecidableEq, Repr

/-- A full row of the `users` table. -/
structure DatabaseUser where
  id : Int
  username : List Nat
  password : List Nat
  deriving DecidableEq, Repr

/-- The row shape `signup`/`login`/`patch_login` insert or compare:
username plus password digest. -/
structure InsertableDatabaseUser where
  username : List Nat
  password : List Nat
  deriving DecidableEq, Repr

/-- blake3 incremental hasher state: the byte stream fed so far. -/
structure Hasher where
  stream : List Nat
  deriving DecidableEq, Repr

/-- `blake3::Hasher::new()`. -/
def Hasher.new : Hasher := ⟨[]⟩

/-- `Hasher::update`: append bytes to the stream. -/
def Hasher.update (h : Hasher) (bytes : List Nat) : Hasher := ⟨h.stream ++ bytes⟩

/-- `Hasher::finalize`: apply the hash function `H` to the whole stream
fed so far (blake3 streaming hashes the concatenation of all updates). -/
def Hasher.finalize (h : Hasher) (H : List Nat → List Nat) : List Nat := H h.stream

/-- `impl Into<InsertableDatabaseUser> for Login` (`auth.rs:108`): hash
username bytes then password bytes. -/
def Login.intoInsertable (l : Login) (H : List Nat → List Nat) : InsertableDatabaseUser :=
  let hash := (Hasher.new.update l.username).update l.password
  ⟨l.username, hash.finalize H⟩

/-- `impl Into<InsertableDatabaseUser> for Basic` (`auth.rs:120`): hash
username bytes then password bytes of the decoded credential. -/
def BasicCred.intoInsertable (b : BasicCred) (H : List Nat → List Nat) : InsertableDatabaseUser :=
  let hash := (Hasher.new.update b.username).update b.password
  ⟨b.username, hash.finalize H⟩

/-- The request data the auth pipeline inspects: at most one
`Authorization` header value, and the parsed cookie pairs. -/
structure Request where
  authorization : Option (List Nat)
  cookies : List (List Nat × List Nat)
  deriving DecidableEq, Repr

/-- `CookieJar::get`: the value of the first cookie with this name. -/
def Request.cookieGet (req : Request) (name : List Nat) : Option (List Nat) :=
  (req.cookies.find? (fun c => c.1 == name)).map (fun c => c.2)

/-- Availability of the infrastructure collaborators for one request:
the seeded `users` table, whether the storage backend answers queries,
whether `pool.get()` / `pool.get_owned()` yield a connection, and
whether the session-stamping statement succeeds. -/
structure Env where
  users : List DatabaseUser
  storageUp : Bool
  poolGetOk : Bool
  poolGetOwnedOk : Bool
  stampOk : Bool
  deriving DecidableEq, Repr

/-- Optional extraction of `TypedHeader<Authorization<Basic>>`: an absent
header is `none`; a present header that does not decode is a rejection. -/
def extractBasicAuth (req : Request) : Except Unit (Option BasicCred) :=
  match req.authorization with
  | none => .ok none
  | some v =>
    match authBasicHeaderDecode v with
    | some b => .ok (some b)
    | none => .error ()

/-- Optional extraction of `TypedHeader<Authorization<Bearer>>`. -/
def extractBearerAuth (req : Request) : Except Unit (Option (List Nat)) :=
  match req.authorization with
  | none => .ok none
  | some v =>
    match authBearerHeaderDecode v with
    | some t => .ok (some t)
    | none => .error ()

/-- The `or_else` closure at `auth.rs:252`: look up the `sessionid`
cookie, rebuild a `HeaderValue` from its value, and decode that as a
`Basic` credential; any failure along the chain yields `none`. -/
def sessionCookieCred (req : Request) : Option BasicCred :=
  (req.cookieGet sessionidBytes).bind fun v =>
    (headerValueFromStr v).bind fun hv => basicCredentialsDecode hv

/-- The username lookup at `auth.rs:260`: `get_result` yields the first
matching row, and reports an error both when the backend is unreachable
and when no row matches (diesel `NotFound`). -/
def queryUserByUsername (env : Env) (uname : List Nat) : Except Unit DatabaseUser :=
  if env.storageUp then
    match env.users.find? (fun r => r.username == uname) with
    | some row => .ok row
    | none => .error ()
  else .error ()

/-- The credential-precedence step at `auth.rs:246`: the extracted
`Basic` header, `or_else` the `sessionid` cookie credential. -/
def resolvedBasicCred (req : Request) : Except Unit (Option BasicCred) :=
  match extractBasicAuth req with
  | .error e => .error e
  | .ok headerCred => .ok (headerCred.orElse fun _ => sessionCookieCred req)

/-- `impl OptionalFromRequestParts<Pool> for User` (`auth.rs:230`):
resolve a `Basic` credential from the authorization header or, when that
header is absent, from the `sessionid` cookie; then lease a connection,
fetch the row by username and compare digests.  The `CookieJar`
extraction is infallible, so its error arm is dead code and elided. -/
def userOptionalFromRequestParts (H : List Nat → List Nat) (env : Env)
    (req : Request) : Except Error (Option User) :=
  match resolvedBasicCred req with
  | .error _ => .error ⟨400, .parseBasicHeader, Actions.signOutAction⟩
  | .ok credential =>
    match credential with
    | some basicAuth =>
      if env.poolGetOk then
        match queryUserByUsername env basicAuth.username with
        | .error _ => .error ⟨500, .getUserFromDatabase, Actions.signOutAction⟩
        | .ok user =>
          let loginAttempt := basicAuth.intoInsertable H
          if loginAttempt.password ≠ user.password then
            .error ⟨401, .passwordMismatch, Actions.signOutAction⟩
          else
            .ok (some ⟨user.id, user.username⟩)
      else .error ⟨500, .getConnection, Actions.default⟩
    | none =>
      match extractBearerAuth req with
      | .error _ => .error ⟨400, .parseBearerHeader, Actions.signOutAction⟩
      | .ok _ => .ok none

/-- The `or_else` cookie closure at `auth.rs:252` as it executes: `none`
models the closure panicking inside `Basic::decode` (a `sessionid` value
that `HeaderValue::from_str` accepts but that is shorter than the
six-byte `Basic ` prefix); `some c` is the closure returning credential
option `c` (absent cookie, `from_str` failure and decode failure all
return `c = none` silently through `?`). -/
def sessionCookieCredRun (req : Request) : Option (Option BasicCred) :=
  match req.cookieGet sessionidBytes with
  | none => some none
  | some v =>
    match headerValueFromStr v with
    | none => some none
    | some hv => basicDecodeRun hv

/-- The optional `User` extraction as the running program behaves,
panics included: `none` means the handler panicked (the
`CatchPanicLayer::custom(PanicHandler)` installed in `main.rs:265`
answers such a request with a 500 panic response); `some r` means the
extractor returned `r`.  The cookie closure is the only panic site, and
it only runs when the `Basic` header extraction produced `Ok(None)`. -/
def userResolutionRun (H : List Nat → List Nat) (env : Env)
    (req : Request) : Option (Except Error (Option User)) :=
  match extractBasicAuth req with
  | .error _ => some (.error ⟨400, .parseBasicHeader, Actions.signOutAction⟩)
  | .ok (some _) => some (userOptionalFromRequestParts H env req)
  | .ok none =>
    match sessionCookieCredRun req with
    | none => none
    | some _ => some (userOptionalFromRequestParts H env req)

/-- A leased connection; the model records the value `set_config` stored
in the `app.current_user_id` session variable. -/
structure Conn where
  sessionUserId : Int
  deriving DecidableEq, Repr

/-- `DatabaseConnection`: the bound connection, the cookie jar, and the
resolved user, as handed to handlers. -/
structure DatabaseConnection where
  conn : Conn
  cookieJar : List (List Nat × List Nat)
  user : Option User
  deriving DecidableEq, Repr

/-- `impl FromRequestParts<Pool> for DatabaseConnection` (`auth.rs:289`):
run the optional user extraction, lease a connection with `get_owned`,
stamp `user.as_ref().map(|u| u.id).unwrap_or_default()` (the `i32`
default is `0`) into the session state, and return the bound context. -/
def databaseConnectionFromRequestParts (H : List Nat → List Nat) (env : Env)
    (req : Request) : Except Error DatabaseConnection :=
  match userOptionalFromRequestParts H env req with
  | .error e => .error e
  | .ok user =>
    if env.poolGetOwnedOk then
      if env.stampOk then
        .ok ⟨⟨(user.map (fun u => u.id)).getD 0⟩, req.cookies, user⟩
      else .error ⟨500, .setUserIdOnConnection, Actions.default⟩
    else .error ⟨500, .getConnection, Actions.default⟩

/-- The row `signup` inserts (`auth.rs:359`): the login body converted
through `Into<InsertableDatabaseUser>`; storage assigns the surrogate
id. -/
def signupRow (H : List Nat → List Nat) (newUser : Login) (id : Int) : DatabaseUser :=
  let dbUser := newUser.intoInsertable H
  ⟨id, dbUser.username, dbUser.password⟩

/-- The content preference decoded from the `accept` header. -/
inductive HtmlOrJsonHeader
  | html
  | json
  deriving DecidableEq, Repr

/-- The loop of `HtmlOrJsonHeader::decode` (`html_or_json.rs:25`),
carrying the running result. -/
def htmlOrJsonDecodeLoop : List (List Nat) → HtmlOrJsonHeader → Except Unit HtmlOrJsonHeader
  | [], r => .ok r
  | v :: rest, _r =>
    match headerValueToStr v with
    | some s =>
      htmlOrJsonDecodeLoop rest (if s = appJsonBytes then .json else .html)
    | none => .error ()

/-- `HtmlOrJsonHeader::decode` over the `accept` header values in order:
start from `Html`, overwrite with the preference of each value, fail on
the first value `to_str` rejects. -/
def htmlOrJsonDecode (values : List (List Nat)) : Except Unit HtmlOrJsonHeader :=
  htmlOrJsonDecodeLoop values .html

/-! Concrete fixtures used to instantiate the theorems below on closed
inputs. -/

/-- Concrete stand-in for the hash parameter `H` in closed instances:
pad with zero bytes and truncate to 32 bytes. -/
def testHash (l : List Nat) : List Nat := (l ++ List.replicate 32 0).take 32

/-- Bytes of `alice`. -/
def aliceBytes : List Nat := [97, 108, 105, 99, 101]

/-- Bytes of `pw1`. -/
def pw1Bytes : List Nat := [112, 119, 49]

/-- Bytes of `wrong`. -/
def wrongBytes : List Nat := [119, 114, 111, 110, 103]

/-- Header value `Basic YWxpY2U6cHcx` (base64 of `alice:pw1`). -/
def hdrAlicePw1 : List Nat :=
  [66, 97, 115, 105, 99, 32, 89, 87, 120, 112, 89, 50, 85, 54, 99, 72, 99, 120]

/-- Header value `Basic YWxpY2U6d3Jvbmc=` (base64 of `alice:wrong`). -/
def hdrAliceWrong : List Nat :=
  [66, 97, 115, 105, 99, 32, 89, 87, 120, 112, 89, 50, 85, 54, 100, 51, 74, 118,
   98, 109, 99, 61]

/-- Header value `Basic YTpwdzE=` (base64 of `a:pw1`). -/
def hdrAPw1 : List Nat :=
  [66, 97, 115, 105, 99, 32, 89, 84, 112, 119, 100, 122, 69, 61]

/-- Header value `Basic YjpwdzI=` (base64 of `b:pw2`). -/
def hdrBPw2 : List Nat :=
  [66, 97, 115, 105, 99, 32, 89, 106, 112, 119, 100, 122, 73, 61]

/-- Header value `Basic !!!`: claims the Basic scheme, payload is not
base64. -/
def hdrBasicMalformed : List Nat := [66, 97, 115, 105, 99, 32, 33, 33, 33]

/-- A `users` table holding only alice, signed up with password `pw1`
under `testHash`, with id 7. -/
def usersAlice : List DatabaseUser := [signupRow testHash ⟨aliceBytes, pw1Bytes⟩ 7]

/-- Fully healthy infrastructure over a given table. -/
def healthyEnv (users : List DatabaseUser) : Env := ⟨users, true, true, true, true⟩

/-! Theorems. -/

/-- A successful username lookup returns a row with that username. -/
theorem queryUserByUsername_username_eq {env : Env} {uname : List Nat}
    {row : DatabaseUser} (h : queryUserByUsername env uname = .ok row) :
    row.username = uname := by
  unfold queryUserByUsername at h
  by_cases hs : env.storageUp = true
  · simp only [hs, if_true] at h
    cases hf : env.users.find? (fun r => r.username == uname) with
    | none => rw [hf] at h; exact absurd h (by simp)
    | some row2 =>
      rw [hf] at h
      have hrow : row2 = row := by
        simpa using h
      have := List.find?_some hf
      rw [hrow] at this
      exact by simpa using this
  · simp only [hs, if_false] at h
    exact absurd h (by simp)

/-- The stand-in hash always produces 32 bytes. -/
theorem testHash_length (l : List Nat) : (testHash l).length = 32 := by
  simp [testHash]

/-- C1: whenever the Connection-Context Binder completes successfully,
the value stamped into `app.current_user_id` is exactly the id of the
identity the Resolver/Loader chain produced for this request (or the
anonymous sentinel 0 when no identity was resolved), and the returned
context carries exactly that identity. -/
theorem stamped_identity_matches_resolved_user
    (H : List Nat → List Nat) (env : Env) (req : Request)
    (ctx : DatabaseConnection)
    (h : databaseConnectionFromRequestParts H env req = .ok ctx) :
    userOptionalFromRequestParts H env req = .ok ctx.user ∧
    (∀ u, ctx.user = some u → ctx.conn.sessionUserId = u.id) ∧
    (ctx.user = none → ctx.conn.sessionUserId = 0) := by
  unfold databaseConnectionFromRequestParts at h
  cases hu : userOptionalFromRequestParts H env req with
  | error e => rw [hu] at h; exact absurd h (by simp)
  | ok user =>
    rw [hu] at h
    by_cases hp : env.poolGetOwnedOk = true
    · by_cases hst : env.stampOk = true
      · simp only [hp, hst, if_true] at h
        have hctx : ctx =
            ⟨⟨(user.map fun u => u.id).getD 0⟩, req.cookies, user⟩ := by
          simpa using h.symm
        subst hctx
        refine ⟨rfl, ?_, ?_⟩
        · intro u huser
          simp only at huser
          subst huser
          simp
        · intro huser
          simp only at huser
          subst huser
          simp
      · simp only [hp, hst, if_true, if_false] at h
        exact absurd h (by simp)
    · simp only [hp, if_false] at h
      exact absurd h (by simp)

/-- C1 witness: an anonymous request over healthy infrastructure binds
successfully, the stamp is the sentinel 0 and the context carries no
identity. -/
theorem stamped_identity_matches_resolved_user_witness :
    databaseConnectionFromRequestParts testHash (healthyEnv []) ⟨none, []⟩ =
      .ok ⟨⟨0⟩, [], none⟩ ∧
    userOptionalFromRequestParts testHash (healthyEnv []) ⟨none, []⟩ =
      .ok (⟨⟨0⟩, ([] : List (List Nat × List Nat)), none⟩ : DatabaseConnection).user :=
  ⟨rfl,
    (stamped_identity_matches_resolved_user testHash (healthyEnv []) ⟨none, []⟩
      ⟨⟨0⟩, [], none⟩ rfl).1⟩

/-- C2: when the request carries a well-formed `Basic` authorization
header, the resolver settles on the header credential: the outcome is
the same for every cookie jar (the cookie is never consulted), and any
identity produced has the header credential's username. -/
theorem auth_header_takes_precedence_over_cookie
    (H : List Nat → List Nat) (env : Env) (req : Request)
    (hv : List Nat) (bc : BasicCred)
    (hauth : req.authorization = some hv)
    (hdec : authBasicHeaderDecode hv = some bc) :
    resolvedBasicCred req = .ok (some bc) ∧
    (∀ cookies2, userOptionalFromRequestParts H env ⟨req.authorization, cookies2⟩ =
      userOptionalFromRequestParts H env req) ∧
    (∀ u, userOptionalFromRequestParts H env req = .ok (some u) →
      u.username = bc.username) := by
  have hres : resolvedBasicCred req = .ok (some bc) := by
    unfold resolvedBasicCred extractBasicAuth
    rw [hauth]
    simp only [hdec]
    rfl
  have hres2 : ∀ cookies2 : List (List Nat × List Nat),
      resolvedBasicCred ⟨req.authorization, cookies2⟩ = .ok (some bc) := by
    intro cookies2
    unfold resolvedBasicCred extractBasicAuth
    rw [hauth]
    simp only [hdec]
    rfl
  refine ⟨hres, ?_, ?_⟩
  · intro cookies2
    unfold userOptionalFromRequestParts
    rw [hres, hres2]
  · intro u hu
    unfold userOptionalFromRequestParts at hu
    rw [hres] at hu
    by_cases hp : env.poolGetOk = true
    · simp only [hp, if_true] at hu
      cases hq : queryUserByUsername env bc.username with
      | error e => exact absurd hu (by simp [hq])
      | ok row =>
        simp only [hq] at hu
        by_cases heq : (bc.intoInsertable H).password = row.password
        · rw [if_neg (not_not_intro heq)] at hu
          have : User.mk row.id row.username = u := by simpa using hu
          rw [← this]
          simpa using queryUserByUsername_username_eq hq
        · rw [if_pos heq] at hu
          exact absurd hu (by simp)
    · simp only [hp, if_false] at hu
      exact absurd hu (by simp)

/-- C2 witness: header credential `(a, pw1)`, cookie credential
`(b, pw2)`: the resolver settles on the header's `(a, pw1)`. -/
theorem auth_header_takes_precedence_over_cookie_witness :
    authBasicHeaderDecode hdrAPw1 = some ⟨[97, 58, 112, 119, 49], 1⟩ ∧
    sessionCookieCred ⟨some hdrAPw1, [(sessionidBytes, hdrBPw2)]⟩ =
      some ⟨[98, 58, 112, 119, 50], 1⟩ ∧
    resolvedBasicCred ⟨some hdrAPw1, [(sessionidBytes, hdrBPw2)]⟩ =
      .ok (some ⟨[97, 58, 112, 119, 49], 1⟩) :=
  ⟨by decide, by decide,
    (auth_header_takes_precedence_over_cookie testHash (healthyEnv [])
      ⟨some hdrAPw1, [(sessionidBytes, hdrBPw2)]⟩ hdrAPw1
      ⟨[97, 58, 112, 119, 49], 1⟩ rfl (by decide)).1⟩

/-- C3 counterexample: with healthy infrastructure and an empty `users`
table, a request authenticating as `alice` does not make the Identity
Loader return `None`: the diesel `NotFound` of `get_result` is wrapped
into a 500 error (with the sign-out action), the same way a storage
failure is. -/
theorem unknown_username_is_error_not_none :
    userOptionalFromRequestParts testHash (healthyEnv []) ⟨some hdrAlicePw1, []⟩ =
      .error ⟨500, .getUserFromDatabase, Actions.signOutAction⟩ ∧
    userOptionalFromRequestParts testHash (healthyEnv []) ⟨some hdrAlicePw1, []⟩ ≠
      .ok none := by
  constructor
  · rfl
  · intro h
    rw [show userOptionalFromRequestParts testHash (healthyEnv [])
          ⟨some hdrAlicePw1, []⟩ =
        .error ⟨500, .getUserFromDatabase, Actions.signOutAction⟩ from rfl] at h
    exact absurd h (by simp)

/-- C3 amended: when a credential was resolved, the connection was
leased and the storage backend is up, a username with no matching row
makes the whole request fail with the same 500 sign-out error a storage
failure produces (diesel `NotFound` from `get_result`); `None` is only
returned when no credential is present at all. -/
theorem unknown_username_storage_error
    (H : List Nat → List Nat) (env : Env) (req : Request) (bc : BasicCred)
    (hres : resolvedBasicCred req = .ok (some bc))
    (hpool : env.poolGetOk = true)
    (hstore : env.storageUp = true)
    (hfind : env.users.find? (fun r => r.username == bc.username) = none) :
    userOptionalFromRequestParts H env req =
      .error ⟨500, .getUserFromDatabase, Actions.signOutAction⟩ := by
  have hq : queryUserByUsername env bc.username = .error () := by
    unfold queryUserByUsername
    simp only [hstore, if_true, hfind]
  unfold userOptionalFromRequestParts
  rw [hres]
  simp only [hpool, if_true, hq]

/-- C3 amended witness: alice resolved, empty table, healthy storage. -/
theorem unknown_username_storage_error_witness :
    resolvedBasicCred ⟨some hdrAlicePw1, []⟩ =
      .ok (some ⟨[97, 108, 105, 99, 101, 58, 112, 119, 49], 5⟩) ∧
    userOptionalFromRequestParts testHash (healthyEnv []) ⟨some hdrAlicePw1, []⟩ =
      .error ⟨500, .getUserFromDatabase, Actions.signOutAction⟩ :=
  ⟨rfl,
    unknown_username_storage_error testHash (healthyEnv []) ⟨some hdrAlicePw1, []⟩
      ⟨[97, 108, 105, 99, 101, 58, 112, 119, 49], 5⟩ rfl rfl rfl rfl⟩

/-- C4: a resolved credential whose username exists but whose computed
digest differs byte-for-byte from the stored digest fails the request
with status 401 and the sign-out action; it produces an error, not an
anonymous fallback. -/
theorem digest_mismatch_unauthorized_sign_out
    (H : List Nat → List Nat) (env : Env) (req : Request) (bc : BasicCred)
    (row : DatabaseUser)
    (hres : resolvedBasicCred req = .ok (some bc))
    (hpool : env.poolGetOk = true)
    (hq : queryUserByUsername env bc.username = .ok row)
    (hne : (bc.intoInsertable H).password ≠ row.password) :
    userOptionalFromRequestParts H env req =
      .error ⟨401, .passwordMismatch, Actions.signOutAction⟩ ∧
    Actions.signOutAction.signOut = some "Sign out" := by
  refine ⟨?_, rfl⟩
  unfold userOptionalFromRequestParts
  rw [hres]
  simp only [hpool, if_true, hq]
  rw [if_pos hne]

/-- C4 witness: alice stored with `pw1`, request authenticates with
`wrong`. -/
theorem digest_mismatch_unauthorized_sign_out_witness :
    (((⟨[97, 108, 105, 99, 101, 58, 119, 114, 111, 110, 103], 5⟩ :
        BasicCred).intoInsertable testHash).password ≠
      (signupRow testHash ⟨aliceBytes, pw1Bytes⟩ 7).password) ∧
    userOptionalFromRequestParts testHash (healthyEnv usersAlice)
        ⟨some hdrAliceWrong, []⟩ =
      .error ⟨401, .passwordMismatch, Actions.signOutAction⟩ :=
  ⟨by decide,
    (digest_mismatch_unauthorized_sign_out testHash (healthyEnv usersAlice)
      ⟨some hdrAliceWrong, []⟩
      ⟨[97, 108, 105, 99, 101, 58, 119, 114, 111, 110, 103], 5⟩
      (signupRow testHash ⟨aliceBytes, pw1Bytes⟩ 7)
      rfl rfl rfl (by decide)).1⟩

/-- C5: an authorization header that claims the `Basic` scheme but whose
payload does not decode fails the whole resolution with a 400 error,
whatever the cookie jar holds; and the cookie is only ever consulted
when the authorization header is entirely absent. -/
theorem malformed_basic_header_bad_request
    (H : List Nat → List Nat) (env : Env) (req : Request) (hv : List Nat)
    (hauth : req.authorization = some hv)
    (hscheme : authSchemeMatches basicSchemeBytes hv = true)
    (hfail : basicCredentialsDecode hv = none) :
    userOptionalFromRequestParts H env req =
      .error ⟨400, .parseBasicHeader, Actions.signOutAction⟩ ∧
    (∀ r : Request, extractBasicAuth r = .ok none ↔ r.authorization = none) := by
  constructor
  · have hhdr : authBasicHeaderDecode hv = none := by
      unfold authBasicHeaderDecode
      rw [if_pos hscheme, hfail]
    unfold userOptionalFromRequestParts resolvedBasicCred extractBasicAuth
    rw [hauth]
    simp only [hhdr]
  · intro r
    constructor
    · intro h
      unfold extractBasicAuth at h
      cases hr : r.authorization with
      | none => rfl
      | some v =>
        rw [hr] at h
        cases hd : authBasicHeaderDecode v with
        | none => simp [hd] at h
        | some b => simp [hd] at h
    · intro h
      unfold extractBasicAuth
      rw [h]

/-- C5 witness: header `Basic !!!` with a valid `(b, pw2)` cookie still
rejects with 400. -/
theorem malformed_basic_header_bad_request_witness :
    authSchemeMatches basicSchemeBytes hdrBasicMalformed = true ∧
    basicCredentialsDecode hdrBasicMalformed = none ∧
    sessionCookieCred ⟨some hdrBasicMalformed, [(sessionidBytes, hdrBPw2)]⟩ =
      some ⟨[98, 58, 112, 119, 50], 1⟩ ∧
    userOptionalFromRequestParts testHash (healthyEnv usersAlice)
        ⟨some hdrBasicMalformed, [(sessionidBytes, hdrBPw2)]⟩ =
      .error ⟨400, .parseBasicHeader, Actions.signOutAction⟩ :=
  ⟨by decide, by decide, by decide,
    (malformed_basic_header_bad_request testHash (healthyEnv usersAlice)
      ⟨some hdrBasicMalformed, [(sessionidBytes, hdrBPw2)]⟩ hdrBasicMalformed
      rfl (by decide) (by decide)).1⟩

/-- C6: round-trip.  If the `users` table holds the row `signup` created
for `(u, s)`, a request whose resolved credential is exactly `(u, s)`
authenticates to an identity with username `u`, while a resolved
credential `(u, sBad)` with `sBad ≠ s` fails with 401 — assuming the
hash does not collide on the two streams (blake3 makes this overwhelming
but not absolute). -/
theorem signup_roundtrip_authentication
    (H : List Nat → List Nat) (env : Env) (reqGood reqBad : Request)
    (id : Int) (u s sBad : List Nat) (bcGood bcBad : BasicCred)
    (hfind : env.users.find? (fun r => r.username == u) =
      some (signupRow H ⟨u, s⟩ id))
    (hpool : env.poolGetOk = true) (hstore : env.storageUp = true)
    (hgood : resolvedBasicCred reqGood = .ok (some bcGood))
    (hgu : bcGood.username = u) (hgp : bcGood.password = s)
    (hbad : resolvedBasicCred reqBad = .ok (some bcBad))
    (hbu : bcBad.username = u) (hbp : bcBad.password = sBad)
    (_hne : sBad ≠ s)
    (hcoll : H (u ++ sBad) ≠ H (u ++ s)) :
    userOptionalFromRequestParts H env reqGood = .ok (some ⟨id, u⟩) ∧
    userOptionalFromRequestParts H env reqBad =
      .error ⟨401, .passwordMismatch, Actions.signOutAction⟩ := by
  have hq : ∀ bc : BasicCred, bc.username = u →
      queryUserByUsername env bc.username = .ok (signupRow H ⟨u, s⟩ id) := by
    intro bc hbcu
    unfold queryUserByUsername
    rw [hbcu]
    simp only [hstore, if_true, hfind]
  have hrowpw : (signupRow H ⟨u, s⟩ id).password = H (u ++ s) := by
    simp [signupRow, Login.intoInsertable, Hasher.new, Hasher.update, Hasher.finalize]
  constructor
  · unfold userOptionalFromRequestParts
    rw [hgood]
    simp only [hpool, if_true, hq bcGood hgu]
    have hpw : (bcGood.intoInsertable H).password = H (u ++ s) := by
      simp [BasicCred.intoInsertable, Hasher.new, Hasher.update, Hasher.finalize,
        hgu, hgp]
    rw [if_neg (not_not_intro (by rw [hpw, hrowpw]))]
    simp [signupRow, Login.intoInsertable, Hasher.new, Hasher.update, Hasher.finalize]
  · unfold userOptionalFromRequestParts
    rw [hbad]
    simp only [hpool, if_true, hq bcBad hbu]
    have hpw : (bcBad.intoInsertable H).password = H (u ++ sBad) := by
      simp [BasicCred.intoInsertable, Hasher.new, Hasher.update, Hasher.finalize,
        hbu, hbp]
    rw [if_pos (by rw [hpw, hrowpw]; exact hcoll)]

/-- C6 witness: alice signed up with `pw1`; authenticating with `pw1`
succeeds as alice, authenticating with `wrong` is rejected with 401. -/
theorem signup_roundtrip_authentication_witness :
    (healthyEnv usersAlice).users.find? (fun r => r.username == aliceBytes) =
      some (signupRow testHash ⟨aliceBytes, pw1Bytes⟩ 7) ∧
    testHash (aliceBytes ++ wrongBytes) ≠ testHash (aliceBytes ++ pw1Bytes) ∧
    userOptionalFromRequestParts testHash (healthyEnv usersAlice)
        ⟨some hdrAlicePw1, []⟩ = .ok (some ⟨7, aliceBytes⟩) ∧
    userOptionalFromRequestParts testHash (healthyEnv usersAlice)
        ⟨some hdrAliceWrong, []⟩ =
      .error ⟨401, .passwordMismatch, Actions.signOutAction⟩ := by
  have h := signup_roundtrip_authentication testHash (healthyEnv usersAlice)
    ⟨some hdrAlicePw1, []⟩ ⟨some hdrAliceWrong, []⟩ 7
    aliceBytes pw1Bytes wrongBytes
    ⟨[97, 108, 105, 99, 101, 58, 112, 119, 49], 5⟩
    ⟨[97, 108, 105, 99, 101, 58, 119, 114, 111, 110, 103], 5⟩
    rfl rfl rfl rfl (by decide) (by decide) rfl (by decide) (by decide)
    (by decide) (by decide)
  exact ⟨rfl, by decide, h.1, h.2⟩

/-- C7: both credential-carrier conversions (`Login` body and decoded
`Basic` header) hash the single stream `username ++ secret` and agree on
equal pairs; the digest is the hash of the concatenation, which is 32
bytes long whenever the hash function produces 32-byte outputs (blake3's
`OUT_LEN`).  Determinism is inherent: the conversions are functions of
`(username, secret)` alone. -/
theorem hash_concat_of_username_then_secret
    (H : List Nat → List Nat) (u s : List Nat) (bc : BasicCred)
    (h32 : ∀ l, (H l).length = 32)
    (hbu : bc.username = u) (hbp : bc.password = s) :
    Login.intoInsertable ⟨u, s⟩ H = bc.intoInsertable H ∧
    (Login.intoInsertable ⟨u, s⟩ H).password = H (u ++ s) ∧
    (H (u ++ s)).length = 32 := by
  refine ⟨?_, ?_, h32 _⟩ <;>
    simp [Login.intoInsertable, BasicCred.intoInsertable, Hasher.new,
      Hasher.update, Hasher.finalize, hbu, hbp]

/-- C7 witness: the pair `(a, pw1)` carried by the login body and by the
decoded basic header produce the same digest under the 32-byte stand-in
hash. -/
theorem hash_concat_of_username_then_secret_witness :
    Login.intoInsertable ⟨[97], [112, 119, 49]⟩ testHash =
      BasicCred.intoInsertable ⟨[97, 58, 112, 119, 49], 1⟩ testHash ∧
    (Login.intoInsertable ⟨[97], [112, 119, 49]⟩ testHash).password =
      testHash ([97] ++ [112, 119, 49]) :=
  ⟨(hash_concat_of_username_then_secret testHash [97] [112, 119, 49]
      ⟨[97, 58, 112, 119, 49], 1⟩ testHash_length rfl rfl).1,
    (hash_concat_of_username_then_secret testHash [97] [112, 119, 49]
      ⟨[97, 58, 112, 119, 49], 1⟩ testHash_length rfl rfl).2.1⟩

/-- C8 counterexample: resolution succeeds (anonymous), the pool hands
out a connection, the session-stamping statement fails: the request
fails with a 500 error whose actions are the defaults — the sign-out
suggested action is absent, contrary to the claim. -/
theorem stamp_failure_has_no_sign_out_action :
    databaseConnectionFromRequestParts testHash ⟨[], true, true, true, false⟩
        ⟨none, []⟩ =
      .error ⟨500, .setUserIdOnConnection, Actions.default⟩ ∧
    Actions.default.signOut = none ∧
    Actions.signOutAction.signOut ≠ none :=
  ⟨rfl, rfl, by simp [Actions.signOutAction]⟩

/-- C8 amended: when resolution and loading succeed and the pool yields
a connection but the session-stamping statement fails, the request fails
with a 500 error carrying the *default* actions (no sign-out
suggestion). -/
theorem stamp_failure_server_error_default_actions
    (H : List Nat → List Nat) (env : Env) (req : Request) (user : Option User)
    (hu : userOptionalFromRequestParts H env req = .ok user)
    (hp : env.poolGetOwnedOk = true)
    (hs : env.stampOk = false) :
    databaseConnectionFromRequestParts H env req =
      .error ⟨500, .setUserIdOnConnection, Actions.default⟩ ∧
    Actions.default.signOut = none := by
  refine ⟨?_, rfl⟩
  unfold databaseConnectionFromRequestParts
  rw [hu]
  simp only [hp, hs, if_true, Bool.false_eq_true, if_false]

/-- C8 amended witness: anonymous resolution, stamping fails. -/
theorem stamp_failure_server_error_default_actions_witness :
    userOptionalFromRequestParts testHash ⟨[], true, true, true, false⟩
        ⟨none, []⟩ = .ok none ∧
    databaseConnectionFromRequestParts testHash ⟨[], true, true, true, false⟩
        ⟨none, []⟩ =
      .error ⟨500, .setUserIdOnConnection, Actions.default⟩ :=
  ⟨rfl,
    (stamp_failure_server_error_default_actions testHash
      ⟨[], true, true, true, false⟩ ⟨none, []⟩ none rfl rfl rfl).1⟩

/-- On the header path the scheme test guarantees the value is longer
than the five-byte scheme name, hence at least six bytes: `Basic::decode`
cannot hit its prefix-slice panic there, and its run coincides with the
non-panicking body. -/
theorem basicDecodeRun_of_schemeMatch (v : List Nat)
    (h : authSchemeMatches basicSchemeBytes v = true) :
    basicDecodeRun v = some (basicCredentialsDecode v) := by
  have hlen : basicSchemeBytes.length < v.length := by
    unfold authSchemeMatches at h
    simp only [Bool.and_eq_true, decide_eq_true_eq] at h
    exact h.1.1
  have hlen6 : 6 ≤ v.length := by
    have : basicSchemeBytes.length = 5 := rfl
    omega
  unfold basicDecodeRun
  rw [if_neg (by omega)]

/-- C9 counterexample: with no authorization header, the three-byte
`sessionid` cookie value `abc` falls under the claim (its payload fails
to decode as a Basic credential), yet the program does not treat it as
absent: `Basic::decode` slices the six-byte prefix off unconditionally
and panics, so the request is answered by the panic layer instead of
resolving silently to no identity. -/
theorem short_cookie_value_panics_resolution :
    (headerValueFromStr [97, 98, 99]).bind basicCredentialsDecode = none ∧
    userResolutionRun testHash (healthyEnv usersAlice)
        ⟨none, [(sessionidBytes, [97, 98, 99])]⟩ = none ∧
    userResolutionRun testHash (healthyEnv usersAlice)
        ⟨none, [(sessionidBytes, [97, 98, 99])]⟩ ≠
      some (.ok (none : Option User)) := by
  refine ⟨by decide, rfl, ?_⟩
  rw [show userResolutionRun testHash (healthyEnv usersAlice)
      ⟨none, [(sessionidBytes, [97, 98, 99])]⟩ = none from rfl]
  simp

/-- C9 amended: with no authorization header, a `sessionid` cookie whose
value fails the `HeaderValue::from_str` / `Basic::decode` chain without
tripping the prefix-slice panic — its bytes are rejected by `from_str`,
or it is at least as long as the six-byte `Basic ` prefix — is treated
exactly like an absent cookie: the handler does not panic and resolution
succeeds with no identity.  (A value that passes `from_str` but is
shorter than the prefix instead panics the handler, answered as a 500
panic response; see the counterexample.) -/
theorem malformed_cookie_silently_ignored
    (H : List Nat → List Nat) (env : Env) (req : Request) (v : List Nat)
    (hauth : req.authorization = none)
    (hcookie : req.cookieGet sessionidBytes = some v)
    (hfail : (headerValueFromStr v).bind basicCredentialsDecode = none)
    (hnopanic : headerValueFromStr v = none ∨ 6 ≤ v.length) :
    userResolutionRun H env req = some (.ok none) ∧
    userOptionalFromRequestParts H env req = .ok none := by
  have hmain : userOptionalFromRequestParts H env req = .ok none := by
    have hres : resolvedBasicCred req = .ok none := by
      unfold resolvedBasicCred extractBasicAuth sessionCookieCred
      rw [hauth]
      simp [hcookie, hfail, Option.orElse]
    unfold userOptionalFromRequestParts
    rw [hres]
    unfold extractBearerAuth
    rw [hauth]
  refine ⟨?_, hmain⟩
  have hba : extractBasicAuth req = .ok none := by
    unfold extractBasicAuth
    rw [hauth]
  have hrun : sessionCookieCredRun req = some none := by
    have hstep : sessionCookieCredRun req =
        (match headerValueFromStr v with
          | none => some none
          | some hv => basicDecodeRun hv) := by
      unfold sessionCookieCredRun
      rw [hcookie]
    rw [hstep]
    cases hfs : headerValueFromStr v with
    | none => rfl
    | some hv =>
      have hveq : hv = v := by
        unfold headerValueFromStr at hfs
        by_cases hall : v.all isValidHeaderByte = true
        · rw [if_pos hall] at hfs
          exact (Option.some.inj hfs).symm
        · rw [if_neg hall] at hfs
          exact absurd hfs (by simp)
      have hlen : 6 ≤ v.length := by
        rcases hnopanic with hl | hr
        · rw [hl] at hfs
          exact absurd hfs (by simp)
        · exact hr
      have hdec : basicCredentialsDecode hv = none := by
        rw [hfs] at hfail
        simpa using hfail
      have hlenhv : 6 ≤ hv.length := by
        rw [hveq]
        exact hlen
      show basicDecodeRun hv = some none
      unfold basicDecodeRun
      rw [if_neg (by omega), hdec]
  unfold userResolutionRun
  simp only [hba, hrun, hmain]

/-- C9 amended witness: cookie value `garbage` (seven bytes, no
authorization header): its payload does not base64-decode, the handler
does not panic, and resolution yields no identity and no error. -/
theorem malformed_cookie_silently_ignored_witness :
    (headerValueFromStr [103, 97, 114, 98, 97, 103, 101]).bind
      basicCredentialsDecode = none ∧
    6 ≤ [103, 97, 114, 98, 97, 103, 101].length ∧
    userResolutionRun testHash (healthyEnv usersAlice)
      ⟨none, [(sessionidBytes, [103, 97, 114, 98, 97, 103, 101])]⟩ =
      some (.ok none) :=
  ⟨by decide, by decide,
    (malformed_cookie_silently_ignored testHash (healthyEnv usersAlice)
      ⟨none, [(sessionidBytes, [103, 97, 114, 98, 97, 103, 101])]⟩
      [103, 97, 114, 98, 97, 103, 101] rfl rfl (by decide)
      (Or.inr (by decide))).1⟩

/-- When every value passes `to_str`, the decode loop succeeds and the
result is decided by the last value alone. -/
theorem htmlOrJsonDecodeLoop_ok_of_valid (values : List (List Nat))
    (r : HtmlOrJsonHeader)
    (hall : ∀ v ∈ values, v.all isVisibleAsciiByte = true) :
    htmlOrJsonDecodeLoop values r =
      .ok (match values.getLast? with
        | none => r
        | some v => if v = appJsonBytes then .json else .html) := by
  induction values generalizing r with
  | nil => rfl
  | cons v rest ih =>
    have hv : v.all isVisibleAsciiByte = true := hall v (by simp)
    have hrest : ∀ w ∈ rest, w.all isVisibleAsciiByte = true :=
      fun w hw => hall w (by simp [hw])
    unfold htmlOrJsonDecodeLoop headerValueToStr
    rw [if_pos hv]
    show htmlOrJsonDecodeLoop rest (if v = appJsonBytes then .json else .html) = _
    rw [ih _ hrest]
    cases rest with
    | nil => rfl
    | cons w ws =>
      rw [List.getLast?_cons_cons]
      cases hgl : (w :: ws).getLast? with
      | none => simp at hgl
      | some x => rfl

/-- The decode loop fails exactly when some value fails `to_str`. -/
theorem htmlOrJsonDecodeLoop_error_iff (values : List (List Nat))
    (r : HtmlOrJsonHeader) :
    htmlOrJsonDecodeLoop values r = .error () ↔
      ∃ v ∈ values, v.all isVisibleAsciiByte = false := by
  induction values generalizing r with
  | nil => simp [htmlOrJsonDecodeLoop]
  | cons v rest ih =>
    unfold htmlOrJsonDecodeLoop headerValueToStr
    by_cases hv : v.all isVisibleAsciiByte = true
    · rw [if_pos hv]
      show htmlOrJsonDecodeLoop rest (if v = appJsonBytes then .json else .html)
          = .error () ↔ _
      rw [ih]
      constructor
      · intro h
        obtain ⟨w, hw, hfw⟩ := h
        exact ⟨w, by simp [hw], hfw⟩
      · intro h
        obtain ⟨w, hw, hfw⟩ := h
        rcases List.mem_cons.mp hw with hweq | hwmem
        · subst hweq
          rw [hv] at hfw
          exact absurd hfw (by simp)
        · exact ⟨w, hwmem, hfw⟩
    · rw [if_neg hv]
      rw [Bool.not_eq_true] at hv
      exact ⟨fun _ => ⟨v, by simp, hv⟩, fun _ => rfl⟩

/-- C10: the content preference decodes to JSON exactly when all accept
values pass `to_str` and the last one is literally `application/json`;
it decodes to HTML exactly when all values pass and the last one (if
any) is anything else — in particular a missing accept header decodes
to HTML; and decoding errors exactly when some value has a byte
`to_str` rejects. -/
theorem accept_header_preference_characterization (values : List (List Nat)) :
    (htmlOrJsonDecode values = .ok .json ↔
      (∀ v ∈ values, v.all isVisibleAsciiByte = true) ∧
      values.getLast? = some appJsonBytes) ∧
    (htmlOrJsonDecode values = .ok .html ↔
      (∀ v ∈ values, v.all isVisibleAsciiByte = true) ∧
      values.getLast? ≠ some appJsonBytes) ∧
    (htmlOrJsonDecode values = .error () ↔
      ∃ v ∈ values, v.all isVisibleAsciiByte = false) ∧
    htmlOrJsonDecode [] = .ok .html := by
  have herr : htmlOrJsonDecode values = .error () ↔
      ∃ v ∈ values, v.all isVisibleAsciiByte = false :=
    htmlOrJsonDecodeLoop_error_iff values .html
  by_cases hall : ∀ v ∈ values, v.all isVisibleAsciiByte = true
  · have hok := htmlOrJsonDecodeLoop_ok_of_valid values .html hall
    refine ⟨?_, ?_, herr, rfl⟩
    · rw [show htmlOrJsonDecode values = htmlOrJsonDecodeLoop values .html
          from rfl, hok]
      cases hl : values.getLast? with
      | none =>
        exact ⟨fun h => absurd h (by simp), fun h => absurd h.2 (by simp)⟩
      | some v =>
        show Except.ok (if v = appJsonBytes then HtmlOrJsonHeader.json
            else HtmlOrJsonHeader.html) = Except.ok HtmlOrJsonHeader.json ↔
          (∀ w ∈ values, w.all isVisibleAsciiByte = true) ∧
          some v = some appJsonBytes
        by_cases hv : v = appJsonBytes
        · rw [if_pos hv]
          exact ⟨fun _ => ⟨hall, by rw [hv]⟩, fun _ => rfl⟩
        · rw [if_neg hv]
          exact ⟨fun h => absurd h (by simp),
            fun h => absurd (Option.some.inj h.2) hv⟩
    · rw [show htmlOrJsonDecode values = htmlOrJsonDecodeLoop values .html
          from rfl, hok]
      cases hl : values.getLast? with
      | none =>
        exact ⟨fun _ => ⟨hall, by simp⟩, fun _ => rfl⟩
      | some v =>
        show Except.ok (if v = appJsonBytes then HtmlOrJsonHeader.json
            else HtmlOrJsonHeader.html) = Except.ok HtmlOrJsonHeader.html ↔
          (∀ w ∈ values, w.all isVisibleAsciiByte = true) ∧
          some v ≠ some appJsonBytes
        by_cases hv : v = appJsonBytes
        · rw [if_pos hv]
          exact ⟨fun h => absurd h (by simp), fun h => absurd (by rw [hv]) h.2⟩
        · rw [if_neg hv]
          exact ⟨fun _ => ⟨hall, fun hc => hv (Option.some.inj hc)⟩,
            fun _ => rfl⟩
  · have hex : ∃ v ∈ values, v.all isVisibleAsciiByte = false := by
      push_neg at hall
      obtain ⟨v, hv, hfalse⟩ := hall
      exact ⟨v, hv, by simpa using hfalse⟩
    have herr2 : htmlOrJsonDecode values = .error () := herr.mpr hex
    have hnall : ¬ ∀ v ∈ values, v.all isVisibleAsciiByte = true := by
      obtain ⟨v, hv, hfalse⟩ := hex
      intro h
      rw [h v hv] at hfalse
      exact absurd hfalse (by simp)
    refine ⟨?_, ?_, herr, rfl⟩
    · rw [herr2]
      simp only [false_iff, reduceCtorEq]
      exact fun h => hnall h.1
    · rw [herr2]
      simp only [false_iff, reduceCtorEq]
      exact fun h => hnall h.1

end RGE
